import Mathlib

/-
  Verification of the offline ML pipeline of the XSS-detection repository:
  feature extraction (ml_model.js / src/unnamed/part_003), training and
  model persistence, and k-fold cross-validation (src/database.js).

  Strings are modelled as `List Char`; JavaScript regular-expression tests
  are modelled by a small token matcher with the exact existential
  semantics of `RegExp.test` (a match anywhere in the string).  JavaScript
  numbers are modelled as `ℚ` (all quantities involved are exact
  integer-and-division arithmetic).  Case-insensitive (`/i`) tests run on
  the lowercased string, matching the ASCII patterns the code uses.
-/

namespace XSS

/-- ASCII whitespace as matched by the regex class `\s` on the inputs in
    question (space, tab, LF, VT, FF, CR). -/
def isWsJS (c : Char) : Bool :=
  c == ' ' || c == Char.ofNat 9 || c == Char.ofNat 10 ||
  c == Char.ofNat 11 || c == Char.ofNat 12 || c == Char.ofNat 13

/-- The regex word-character class `\w` = `[A-Za-z0-9_]`. -/
def isWordJS (c : Char) : Bool :=
  ('a' ≤ c && c ≤ 'z') || ('A' ≤ c && c ≤ 'Z') ||
  ('0' ≤ c && c ≤ '9') || c == '_'

/-- Tokens of the tiny pattern language covering the regexes used by
    `extractFeatures`: literal characters, single-character classes, and
    Kleene star over a character class. -/
inductive RTok where
  | lit (c : Char)
  | cls (f : Char → Bool)
  | star (f : Char → Bool)

/-- Match a token list at the start of a string, with full backtracking
    (the boolean semantics of a regex engine).  The fuel argument makes
    the recursion structural; every call shrinks `ps.length + s.length`,
    so `ps.length + s.length + 1` fuel always suffices (see `matchT`). -/
def matchTF : ℕ → List RTok → List Char → Bool
  | 0, _, _ => false
  | _ + 1, [], _ => true
  | fuel + 1, .lit c :: ps, d :: s => (d == c) && matchTF fuel ps s
  | _ + 1, .lit _ :: _, [] => false
  | fuel + 1, .cls f :: ps, d :: s => f d && matchTF fuel ps s
  | _ + 1, .cls _ :: _, [] => false
  | fuel + 1, .star _ :: ps, [] => matchTF fuel ps []
  | fuel + 1, .star f :: ps, d :: s =>
      matchTF fuel ps (d :: s) || (f d && matchTF fuel (.star f :: ps) s)

/-- Match a token list at the start of a string. -/
def matchT (ps : List RTok) (s : List Char) : Bool :=
  matchTF (ps.length + s.length + 1) ps s

/-- `RegExp.test` semantics: does the pattern match anywhere? -/
def searchT (ps : List RTok) : List Char → Bool
  | [] => matchT ps []
  | d :: s => matchT ps (d :: s) || searchT ps s

/-- Literal pattern from a string. -/
def lits (s : String) : List RTok := s.toList.map RTok.lit

/-- A case-insensitive test (`/…/i.test(input)`): search the lowercased
    input. All patterns below are written in lowercase. -/
def testI (ps : List RTok) (s : List Char) : Bool :=
  searchT ps (s.map Char.toLower)

def wsOrGt (c : Char) : Bool := isWsJS c || c == '>'

/-- `/<script[\s>]/i` -/
def scriptOpenPat : List RTok := lits ("<script") ++ [.cls wsOrGt]
/-- `/<\/script>/i` -/
def scriptClosePat : List RTok := lits ("</script>")
/-- `/onerror\s*=/i` -/
def onerrorEqPat : List RTok := lits ("onerror") ++ [.star isWsJS, .lit '=']
/-- `/onclick\s*=/i` -/
def onclickEqPat : List RTok := lits ("onclick") ++ [.star isWsJS, .lit '=']
/-- `/javascript:/i` -/
def javascriptColonPat : List RTok := lits ("javascript:")
/-- `/<img[\s>]/i` -/
def imgPat : List RTok := lits ("<img") ++ [.cls wsOrGt]
/-- `/<iframe[\s>]/i` -/
def iframePat : List RTok := lits ("<iframe") ++ [.cls wsOrGt]
/-- `/eval\s*\(/i` -/
def evalCallPat : List RTok := lits ("eval") ++ [.star isWsJS, .lit '(']
/-- `/alert\s*\(/i` -/
def alertCallPat : List RTok := lits ("alert") ++ [.star isWsJS, .lit '(']
/-- `/<svg[\s>]/i` -/
def svgPat : List RTok := lits ("<svg") ++ [.cls wsOrGt]
/-- `/<body[\s>]/i` -/
def bodyPat : List RTok := lits ("<body") ++ [.cls wsOrGt]
/-- `/<input[\s>]/i` -/
def inputTagPat : List RTok := lits ("<input") ++ [.cls wsOrGt]
/-- `/<form[\s>]/i` -/
def formPat : List RTok := lits ("<form") ++ [.cls wsOrGt]
/-- `/onload\s*=/i` -/
def onloadEqPat : List RTok := lits ("onload") ++ [.star isWsJS, .lit '=']
/-- `/onmouseover\s*=/i` -/
def onmouseoverEqPat : List RTok := lits ("onmouseover") ++ [.star isWsJS, .lit '=']
/-- `/document\./i` -/
def documentDotPat : List RTok := lits ("document.")
/-- `/window\./i` -/
def windowDotPat : List RTok := lits ("window.")
/-- `/alert/i` (plain substring, used in the script+alert combination) -/
def alertPat : List RTok := lits ("alert")
/-- `/onerror/i` (plain substring, used in the img+onerror combination) -/
def onerrorPat : List RTok := lits ("onerror")
/-- `/&#x/i` -/
def hexEncPat : List RTok := lits ("&#x")
/-- `/&#/` -/
def decEncPat : List RTok := lits ("&#")
/-- `/%3c/i` -/
def urlLtPat : List RTok := lits ("%3c")
/-- `/%3e/i` -/
def urlGtPat : List RTok := lits ("%3e")
/-- `/<[^>]*on\w+\s*=/i` -/
def tagEventPat : List RTok :=
  [.lit '<', .star (fun c => !(c == '>'))] ++ lits ("on") ++
  [.cls isWordJS, .star isWordJS, .star isWsJS, .lit '=']
/-- `/javascript\s*:/i` -/
def jsProtoWsPat : List RTok := lits ("javascript") ++ [.star isWsJS, .lit ':']

/-- `(input.match(/c/g) || []).length` for a single literal character. -/
def countChar (c : Char) (s : List Char) : ℕ := (s.filter (· == c)).length

/-- Fueled scanner for `/on\w+/gi` (each call strictly shrinks the
    string, so `s.length + 1` fuel always suffices). -/
def countOnWordF : ℕ → List Char → ℕ
  | 0, _ => 0
  | fuel + 1, 'o' :: 'n' :: c :: rest =>
      if isWordJS c then 1 + countOnWordF fuel (rest.dropWhile isWordJS)
      else countOnWordF fuel ('n' :: c :: rest)
  | fuel + 1, _ :: rest => countOnWordF fuel rest
  | _ + 1, [] => 0

/-- `(input.match(/on\w+/gi) || []).length`: count of non-overlapping,
    left-to-right, greedy matches of `on` followed by at least one word
    character, on the lowercased input. -/
def countOnWord (s : List Char) : ℕ := countOnWordF (s.length + 1) s

/-- `(input.match(/script/gi) || []).length`: non-overlapping occurrences
    of `script` in the lowercased input. -/
def countScript : List Char → ℕ
  | 's' :: 'c' :: 'r' :: 'i' :: 'p' :: 't' :: rest => 1 + countScript rest
  | _ :: rest => countScript rest
  | [] => 0

/-- Boolean feature as the number the code pushes (`… ? 1 : 0`). -/
def b2q (b : Bool) : ℚ := if b then 1 else 0

/-- `Math.max(input.length, 1)` — the normalization denominator
    (`// Avoid division by zero` in the source). -/
def normDen (s : List Char) : ℕ := max s.length 1

/-- `extractFeatures` from ml_model.js: the 36-entry feature vector
    (17 binary pattern indicators, raw length, 7 normalized character
    counts, 2 raw token counts, 3 pattern combinations, 4 encoding
    indicators, 2 suspicious-pattern indicators). -/
def extractFeatures (input : List Char) : List ℚ :=
  let len : ℕ := normDen input
  [ b2q (testI scriptOpenPat input),
    b2q (testI scriptClosePat input),
    b2q (testI onerrorEqPat input),
    b2q (testI onclickEqPat input),
    b2q (testI javascriptColonPat input),
    b2q (testI imgPat input),
    b2q (testI iframePat input),
    b2q (testI evalCallPat input),
    b2q (testI alertCallPat input),
    b2q (testI svgPat input),
    b2q (testI bodyPat input),
    b2q (testI inputTagPat input),
    b2q (testI formPat input),
    b2q (testI onloadEqPat input),
    b2q (testI onmouseoverEqPat input),
    b2q (testI documentDotPat input),
    b2q (testI windowDotPat input),
    (input.length : ℚ),
    (countChar '<' input : ℚ) / (len : ℚ),
    (countChar '>' input : ℚ) / (len : ℚ),
    (countChar '=' input : ℚ) / (len : ℚ),
    (countChar (Char.ofNat 34) input : ℚ) / (len : ℚ),
    (countChar (Char.ofNat 39) input : ℚ) / (len : ℚ),
    (countChar '(' input : ℚ) / (len : ℚ),
    (countChar ')' input : ℚ) / (len : ℚ),
    (countOnWord (input.map Char.toLower) : ℚ),
    (countScript (input.map Char.toLower) : ℚ),
    b2q (testI scriptOpenPat input && testI alertPat input),
    b2q (testI imgPat input && testI onerrorPat input),
    b2q (testI iframePat input && testI javascriptColonPat input),
    b2q (testI hexEncPat input),
    b2q (testI decEncPat input),
    b2q (testI urlLtPat input),
    b2q (testI urlGtPat input),
    b2q (testI tagEventPat input),
    b2q (testI jsProtoWsPat input) ]

/-! ## Confusion-matrix counts and derived metrics

The metric formulas with their zero-guards appear verbatim in
`getConfusionMatrix` and in the fold loop and aggregation step of
`performKFoldCrossValidation` (src/database.js). -/

/-- `(tp + fp) > 0 ? tp / (tp + fp) : 0` -/
def precisionOf (tp fp : ℕ) : ℚ :=
  if 0 < tp + fp then (tp : ℚ) / ((tp : ℚ) + (fp : ℚ)) else 0

/-- `(tp + fn) > 0 ? tp / (tp + fn) : 0` -/
def recallOf (tp fn : ℕ) : ℚ :=
  if 0 < tp + fn then (tp : ℚ) / ((tp : ℚ) + (fn : ℚ)) else 0

/-- `(precision + recall) > 0 ? 2 * precision * recall / (precision + recall) : 0` -/
def f1Of (p r : ℚ) : ℚ :=
  if 0 < p + r then 2 * p * r / (p + r) else 0

/-- `total > 0 ? (tp + tn) / total : 0` -/
def accuracyOf (tp tn fp fn : ℕ) : ℚ :=
  if 0 < tp + tn + fp + fn
  then ((tp : ℚ) + (tn : ℚ)) / ((tp : ℚ) + (tn : ℚ) + (fp : ℚ) + (fn : ℚ))
  else 0

/-- Confusion-matrix counts. -/
structure CM where
  tp : ℕ
  tn : ℕ
  fp : ℕ
  fn : ℕ
deriving DecidableEq, Repr, Inhabited

/-- One step of the counting if-chain in `getConfusionMatrix` and in the
    fold loop of `performKFoldCrossValidation`:
    `if (predicted && actual) tp++; else if (!predicted && !actual) tn++;
     else if (predicted && !actual) fp++; else if (!predicted && actual) fn++;`
    (the four branches are exhaustive; the trailing no-op case is kept for
    fidelity to the if-chain). -/
def cmStep (cm : CM) (predicted actual : Bool) : CM :=
  if predicted && actual then { cm with tp := cm.tp + 1 }
  else if !predicted && !actual then { cm with tn := cm.tn + 1 }
  else if predicted && !actual then { cm with fp := cm.fp + 1 }
  else if !predicted && actual then { cm with fn := cm.fn + 1 }
  else cm

/-! ## The tree-ensemble classifier

Modelled from the spec: the classifier is the external `ml-random-forest`
package (not part of this repository's sources); per the spec it is "a
model composed of many decision trees whose votes are combined (a
'random forest')".  Decision trees, majority voting, and the estimated
class probability (fraction of trees voting for a label) are modelled
here; `toJSON`/`load` are modelled below as structure-preserving
serialization to a JSON document, which is the library's contract. -/

/-- A decision tree of the ensemble. -/
inductive DTree where
  | leaf (label : ℕ)
  | node (idx : ℕ) (thr : ℚ) (left : DTree) (right : DTree)
deriving DecidableEq, Repr, Inhabited

/-- Evaluate a tree on a feature vector. -/
def DTree.eval : DTree → List ℚ → ℕ
  | .leaf l, _ => l
  | .node i t lft rgt, x => if x.getD i 0 ≤ t then lft.eval x else rgt.eval x

/-- The trained ensemble plus the metadata the persistence layer reads
    from `classifier.toJSON().baseModel`. `featureCount` models the
    (normally absent) `classifier.featureCount` instance property that
    `saveModel` probes first. -/
structure RandomForest where
  maxFeatures : ℕ
  nEstimators : ℕ
  estimators : List DTree
  featureCount : Option ℕ := none
deriving DecidableEq, Repr, Inhabited

/-- Majority vote of the trees (`classifier.predict`). -/
def rfPredictLabel (rf : RandomForest) (x : List ℚ) : ℕ :=
  let votes := rf.estimators.map (·.eval x)
  if votes.length < 2 * (votes.filter (· == 1)).length then 1 else 0

/-- Estimated probability of a label: the fraction of trees voting for it
    (`classifier.predictProbability([features], label)[0] || 0`). -/
def rfProb (rf : RandomForest) (x : List ℚ) (label : ℕ) : ℚ :=
  let votes := rf.estimators.map (·.eval x)
  if votes.length = 0 then 0
  else ((votes.filter (· == label)).length : ℚ) / (votes.length : ℚ)

/-- The prediction record returned by `predict` in ml_model.js. -/
structure Pred where
  isMalicious : Bool
  probability : ℚ
  confidence : ℚ
deriving DecidableEq, Repr, Inhabited

/-- `predict(classifier, input)` from ml_model.js: `null` when no
    classifier is loaded, otherwise label, probability of the malicious
    class, and confidence `max(P(clean), P(malicious))`. -/
def predictFn (classifier : Option RandomForest) (input : List Char) : Option Pred :=
  match classifier with
  | none => none
  | some rf =>
      let features := extractFeatures input
      let label := rfPredictLabel rf features
      let probClean := rfProb rf features 0
      let probMalicious := rfProb rf features 1
      some { isMalicious := label == 1
             probability := probMalicious
             confidence := max probClean probMalicious }

/-! ## Serialization (ModelStore) -/

/-- A JSON-like document (numbers as exact rationals). -/
inductive Json where
  | null
  | bool (b : Bool)
  | num (q : ℚ)
  | str (s : String)
  | arr (items : List Json)
  | obj (fields : List (String × Json))

instance : Inhabited Json := ⟨Json.null⟩

/-- Decode a JSON number back to a natural number (exactly). -/
def decodeNatQ (q : ℚ) : Option ℕ :=
  if q.den = 1 ∧ 0 ≤ q.num then some q.num.toNat else none

/-- Serialize one decision tree (`toJSON`, modelled from the spec:
    structure-preserving serialization by the external library). -/
def encodeTree : DTree → Json
  | .leaf l => .obj [("label", .num (l : ℚ))]
  | .node i t lft rgt =>
      .obj [("idx", .num (i : ℚ)), ("thr", .num t),
            ("left", encodeTree lft), ("right", encodeTree rgt)]

/-- Deserialize one decision tree. -/
def decodeTree : Json → Option DTree
  | .obj [(k1, .num q)] =>
      if k1 = "label" then (decodeNatQ q).map DTree.leaf else none
  | .obj [(k1, .num qi), (k2, .num t), (k3, jl), (k4, jr)] =>
      if k1 = "idx" ∧ k2 = "thr" ∧ k3 = "left" ∧ k4 = "right" then
        match decodeNatQ qi, decodeTree jl, decodeTree jr with
        | some i, some lft, some rgt => some (.node i t lft rgt)
        | _, _, _ => none
      else none
  | _ => none

/-- Deserialize a list of trees, failing if any tree fails. -/
def decodeTrees : List Json → Option (List DTree)
  | [] => some []
  | j :: rest =>
      match decodeTree j, decodeTrees rest with
      | some t, some ts => some (t :: ts)
      | _, _ => none

/-- `classifier.toJSON()`: a document with a `baseModel` field holding the
    hyperparameters and an `estimators` array holding the trees. -/
def encodeRF (rf : RandomForest) : Json :=
  .obj [("baseModel",
          .obj [("maxFeatures", .num (rf.maxFeatures : ℚ)),
                ("nEstimators", .num (rf.nEstimators : ℚ))]),
        ("estimators", .arr (rf.estimators.map encodeTree))]

/-- Deserialize the ensemble document. A freshly loaded classifier has no
    `featureCount` instance property (it is `undefined` in the library). -/
def decodeRF : Json → Option RandomForest
  | .obj [(k1, .obj [(km, .num qm), (kn, .num qn)]), (k2, .arr items)] =>
      if k1 = "baseModel" ∧ km = "maxFeatures" ∧ kn = "nEstimators" ∧
          k2 = "estimators" then
        match decodeNatQ qm, decodeNatQ qn, decodeTrees items with
        | some mf, some ne, some trees =>
            some { maxFeatures := mf, nEstimators := ne,
                   estimators := trees, featureCount := none }
        | _, _, _ => none
      else none
  | _ => none

/-- `RandomForestClassifier.load(treesJson, featureCount)`: the library's
    static `load` takes only the serialized document; the extra count
    argument passed by loadModel is dropped by JavaScript call semantics. -/
def rfLoad (treesJson : Json) (_featureCountArg : ℕ) : Option RandomForest :=
  decodeRF treesJson

/-- JavaScript truthiness of an optional numeric field:
    `undefined`/`null` and `0` are falsy. -/
def jsFalsy : Option ℕ → Bool
  | none => true
  | some n => n == 0

/-- `inferFeatureCountFromExtractor` from ml_model.js: run the extractor
    on the empty string and take the array length (the extractor is total,
    so the `try`/`catch` never fires and the array check always passes). -/
def inferFeatureCountFromExtractor : Option ℕ :=
  some (extractFeatures []).length

/-- `modelData.trees && modelData.trees.baseModel &&
    modelData.trees.baseModel.maxFeatures` — look the field up in the
    serialized document. -/
def getBaseModelMaxFeatures (j : Json) : Option ℕ :=
  match j with
  | .obj fields =>
      match fields.lookup "baseModel" with
      | some (.obj bfields) =>
          match bfields.lookup "maxFeatures" with
          | some (.num q) => decodeNatQ q
          | _ => none
      | _ => none
  | _ => none

/-- The hyperparameter record `saveModel` extracts from
    `treesJson.baseModel` (the opaque `treeOptions` sub-record is carried
    inside `trees` and not re-read anywhere, so it is not repeated here). -/
structure Hyper where
  maxFeatures : ℕ
  nEstimators : ℕ
deriving DecidableEq, Repr, Inhabited

/-- The persisted model artifact (`random_forest_model.json`):
    `{ trees, featureCount, hyperparameters }`. -/
structure ModelData where
  trees : Json
  featureCount : Option ℕ
  hyperparameters : Option Hyper
deriving Inhabited

/-- `saveModel(classifier, featureCount)` from ml_model.js, as the value
    written to disk (the `fs` write and its boolean result are the
    I/O boundary and are outside the embedding).  The `numFeatures`
    chain follows the source: the classifier's own property, then the
    explicit argument, then `maxFeatures²` from the serialized base model,
    then the extractor output length, then the hardcoded 19. -/
def saveModel (classifier : RandomForest) (featureCount : Option ℕ) : ModelData :=
  let treesJson := encodeRF classifier
  let n1 := classifier.featureCount
  let n2 := if jsFalsy n1 && featureCount.isSome then featureCount else n1
  let n3 := if jsFalsy n2 then
      match getBaseModelMaxFeatures treesJson with
      | some m => if m ≠ 0 then some (m ^ 2) else n2
      | none => n2
    else n2
  let n4 := if jsFalsy n3 then
      match inferFeatureCountFromExtractor with
      | some n => if n ≠ 0 then some n else n3
      | none => n3
    else n3
  let n5 := if jsFalsy n4 then some 19 else n4
  { trees := treesJson
    featureCount := n5
    hyperparameters := some { maxFeatures := classifier.maxFeatures,
                              nEstimators := classifier.nEstimators } }

/-- The featureCount-reconstruction chain of `loadModel` (ml_model.js
    lines 331-350), returning the resolved count together with a flag
    recording whether a reconstruction warning was logged
    (`console.warn`).  Chain: the artifact's `featureCount` field; else
    `maxFeatures²` from `trees.baseModel` when truthy; else the extractor
    output length (warned); else the hardcoded 19 (warned). -/
def resolveLoadFeatureCount (md : ModelData) : Option ℕ × Bool :=
  let fc1 := md.featureCount
  let fc2 := if jsFalsy fc1 then
      match getBaseModelMaxFeatures md.trees with
      | some m => if m ≠ 0 then some (m ^ 2) else fc1
      | none => fc1
    else fc1
  let step3 := if jsFalsy fc2 then
      match inferFeatureCountFromExtractor with
      | some n => if n ≠ 0 then (some n, true) else (fc2, false)
      | none => (fc2, false)
    else (fc2, false)
  let fc3 := step3.1
  if jsFalsy fc3 then (some 19, true) else (fc3, step3.2)

/-- `loadModel()` from ml_model.js, over the artifact value: `none` when
    the file does not exist (or parsing/decoding throws, in which case the
    `catch` also returns `null`); otherwise the classifier reconstructed
    by the library from `modelData.trees`. -/
def loadModel (artifact : Option ModelData) : Option RandomForest :=
  match artifact with
  | none => none
  | some md => rfLoad md.trees ((resolveLoadFeatureCount md).1.getD 0)

/-! ## Training -/

/-- The two failure messages thrown by `trainModel`, plus a constructor
    for an exception propagated out of the library's
    `classifier.train(X, y)` (the fold loop of the cross-validator
    catches any of these). -/
inductive TrainError where
  | noTrainingData     -- 'No training data available'
  | insufficientData   -- 'Need at least 2 samples to train the model'
  | libraryFailure     -- an exception thrown inside RandomForestClassifier.train
deriving DecidableEq, Repr

/-- A trainer stands for the external `RandomForestClassifier` fit:
    given the feature matrix and labels it either produces a forest or
    throws (`none`).  `trainModel` from ml_model.js wraps it with the
    sample-count guards (the class-distribution logging and the
    in-sample accuracy report are console output only and have no effect
    on the returned classifier). -/
def trainModel (trainer : List (List ℚ) → List ℕ → Option RandomForest)
    (trainingData : List (List ℚ)) (trainingLabels : List ℕ) :
    Except TrainError RandomForest :=
  if trainingData.length = 0 then .error .noTrainingData
  else if trainingData.length < 2 then .error .insufficientData
  else
    match trainer trainingData trainingLabels with
    | some c => .ok c
    | none => .error .libraryFailure

/-! ## k-fold cross-validation (src/database.js) -/

/-- A labeled sample row as returned by `getLabeledResults` (only rows
    with non-null `ground_truth`, already shuffled by `ORDER BY
    RANDOM()`). -/
structure Sample where
  raw : List Char
  groundTruth : String
deriving DecidableEq, Repr, Inhabited

/-- One entry of `foldResults`. -/
structure FoldResult where
  fold : ℕ
  testSize : ℕ
  trainSize : ℕ
  tp : ℕ
  tn : ℕ
  fp : ℕ
  fn : ℕ
  accuracy : ℚ
  precision : ℚ
  recallVal : ℚ   -- `recall` in the JS record (`recall` is a Lean keyword)
  f1 : ℚ
deriving DecidableEq, Repr, Inhabited

/-- The aggregated confusion matrix with its derived metrics. -/
structure AggCM where
  tp : ℕ
  tn : ℕ
  fp : ℕ
  fn : ℕ
  accuracy : ℚ
  precision : ℚ
  recallVal : ℚ   -- `recall` in the JS record (`recall` is a Lean keyword)
  f1 : ℚ
deriving DecidableEq, Repr, Inhabited

/-- The resolved value of `performKFoldCrossValidation`.  The JavaScript
    applies `Math.sqrt` to each variance to report `standardDeviation`;
    the square root is irrational in general, so the embedding carries the
    exact radicand (`var*` fields). -/
structure CVResult where
  k : ℕ
  totalSamples : ℕ
  foldResults : List FoldResult
  aggregated : AggCM
  avgAccuracy : ℚ
  avgPrecision : ℚ
  avgRecall : ℚ
  avgF1 : ℚ
  varAccuracy : ℚ
  varPrecision : ℚ
  varRecall : ℚ
  varF1 : ℚ
deriving DecidableEq, Repr, Inhabited

/-- The two descriptive error objects `performKFoldCrossValidation`
    resolves with instead of crashing. -/
inductive CVError where
  | notEnoughLabeledData (need got : ℕ)
      -- `Not enough labeled data. Need at least ${k} samples, got ${n}`
  | allFoldsFailed
      -- 'Failed to train models for any fold. Check training data.'
deriving DecidableEq, Repr

/-- The fold split: `foldSize = floor(n / k)`;
    `folds[i] = allResults.slice(i*foldSize, i === k-1 ? n : (i+1)*foldSize)`. -/
def makeFolds (l : List Sample) (k : ℕ) : List (List Sample) :=
  let fs := l.length / k
  (List.range k).map (fun i =>
    if i = k - 1 then l.drop (i * fs) else (l.drop (i * fs)).take fs)

/-- `const predicted = mlPrediction ? mlPrediction.isMalicious : false;`
    followed by the counting if-chain. -/
def cmUpdate (cm : CM) (mlPrediction : Option Pred) (actual : Bool) : CM :=
  cmStep cm ((mlPrediction.map (·.isMalicious)).getD false) actual

/-- Scoring loop over the test fold: predict each sample and update the
    counts, with ground truth `result.ground_truth === 'malicious'`. -/
def evalFoldCM (P : RandomForest → List Char → Option Pred)
    (m : RandomForest) (testSet : List Sample) : CM :=
  testSet.foldl
    (fun cm s => cmUpdate cm (P m s.raw) (s.groundTruth == "malicious"))
    { tp := 0, tn := 0, fp := 0, fn := 0 }

/-- Per-fold training: extract features and labels from the train split,
    apply the fold-local `trainingData.length < 2` guard, then
    `trainModel`. -/
def trainFold (trainer : List (List ℚ) → List ℕ → Option RandomForest)
    (trainSet : List Sample) : Except TrainError RandomForest :=
  let trainingData := trainSet.map (fun s => extractFeatures s.raw)
  let trainingLabels := trainSet.map (fun s => if s.groundTruth == "malicious" then 1 else 0)
  if trainingData.length < 2 then .error .insufficientData
  else trainModel trainer trainingData trainingLabels

/-- One iteration of the fold loop: test set = fold `foldIndex`, train
    set = all other folds flattened; `none` when training failed and the
    fold is skipped (`continue`), otherwise the fold's result record. -/
def evalFold (trainer : List (List ℚ) → List ℕ → Option RandomForest)
    (P : RandomForest → List Char → Option Pred)
    (folds : List (List Sample)) (foldIndex : ℕ) : Option FoldResult :=
  let testSet := folds.getD foldIndex []
  let trainSet := (folds.eraseIdx foldIndex).flatten
  match trainFold trainer trainSet with
  | .error _ => none
  | .ok m =>
      let cm := evalFoldCM P m testSet
      some { fold := foldIndex + 1
             testSize := testSet.length
             trainSize := trainSet.length
             tp := cm.tp
             tn := cm.tn
             fp := cm.fp
             fn := cm.fn
             accuracy := accuracyOf cm.tp cm.tn cm.fp cm.fn
             precision := precisionOf cm.tp cm.fp
             recallVal := recallOf cm.tp cm.fn
             f1 := f1Of (precisionOf cm.tp cm.fp) (recallOf cm.tp cm.fn) }

/-- `performKFoldCrossValidation(db, k)` from src/database.js, over the
    shuffled labeled-sample list.  Resolves with a descriptive error when
    there are fewer samples than folds or when no fold trained
    successfully; otherwise aggregates the per-fold confusion matrices by
    summation, derives the aggregated metrics from the summed counts, and
    reports per-fold metric means and (radicands of) standard
    deviations. -/
def performKFoldCrossValidation
    (trainer : List (List ℚ) → List ℕ → Option RandomForest)
    (P : RandomForest → List Char → Option Pred)
    (allResults : List Sample) (k : ℕ) : Except CVError CVResult :=
  if allResults.length < k then
    .error (.notEnoughLabeledData k allResults.length)
  else
    let folds := makeFolds allResults k
    let foldResults := (List.range k).filterMap (evalFold trainer P folds)
    if foldResults.isEmpty then .error .allFoldsFailed
    else
      let aggTp := (foldResults.map (·.tp)).sum
      let aggTn := (foldResults.map (·.tn)).sum
      let aggFp := (foldResults.map (·.fp)).sum
      let aggFn := (foldResults.map (·.fn)).sum
      let aggPrecision := precisionOf aggTp aggFp
      let aggRecall := recallOf aggTp aggFn
      let nf : ℚ := (foldResults.length : ℚ)
      let avgAcc := (foldResults.map (·.accuracy)).sum / nf
      let avgPrec := (foldResults.map (·.precision)).sum / nf
      let avgRec := (foldResults.map (·.recallVal)).sum / nf
      let avgF1 := (foldResults.map (·.f1)).sum / nf
      .ok { k := k
            totalSamples := allResults.length
            foldResults := foldResults
            aggregated := { tp := aggTp
                            tn := aggTn
                            fp := aggFp
                            fn := aggFn
                            accuracy := accuracyOf aggTp aggTn aggFp aggFn
                            precision := aggPrecision
                            recallVal := aggRecall
                            f1 := f1Of aggPrecision aggRecall }
            avgAccuracy := avgAcc
            avgPrecision := avgPrec
            avgRecall := avgRec
            avgF1 := avgF1
            varAccuracy := (foldResults.map (fun f => (f.accuracy - avgAcc) ^ 2)).sum / nf
            varPrecision := (foldResults.map (fun f => (f.precision - avgPrec) ^ 2)).sum / nf
            varRecall := (foldResults.map (fun f => (f.recallVal - avgRec) ^ 2)).sum / nf
            varF1 := (foldResults.map (fun f => (f.f1 - avgF1) ^ 2)).sum / nf }

/-! ## Theorems -/

/-- The feature vector has a fixed length for every input. -/
theorem extractFeatures_len (s : List Char) : (extractFeatures s).length = 36 := rfl

/-- C1 (counterexample): the claim says `extractFeatures` returns 33
    features; on the empty string (and every other input) it returns 36:
    the source pushes 17 binary indicators, the raw length, 7 normalized
    character counts, 2 raw token counts, 3 combinations, 4 encoding
    indicators and 2 suspicious-pattern indicators. -/
theorem extractFeatures_length_not_33 : ¬ ((extractFeatures []).length = 33) := by
  decide

/-- C1 (amended): for every input the extractor returns a vector of one
    fixed length, 36, and that is exactly the `featureCount` the persisted
    artifact records at training time — the training scripts call
    `saveModel(classifier, X[0].length)` with `X[0]` an extracted feature
    vector, and a freshly trained library classifier carries no
    `featureCount` property of its own. -/
theorem extractFeatures_length_eq_featureCount
    (s t : List Char) (rf : RandomForest) (h : rf.featureCount = none) :
    (extractFeatures s).length = 36 ∧
    (saveModel rf (some (extractFeatures t).length)).featureCount = some 36 := by
  refine ⟨rfl, ?_⟩
  have ht : (extractFeatures t).length = 36 := rfl
  simp [saveModel, jsFalsy, h, ht]

/-- C1 (witness): the amended statement at concrete inputs. -/
theorem extractFeatures_length_eq_featureCount_witness :
    (extractFeatures []).length = 36 ∧
    (saveModel { maxFeatures := 6, nEstimators := 100, estimators := [],
                 featureCount := none }
        (some (extractFeatures []).length)).featureCount = some 36 :=
  extractFeatures_length_eq_featureCount [] []
    { maxFeatures := 6, nEstimators := 100, estimators := [], featureCount := none }
    rfl

/-- C8: `extractFeatures('')` evaluates totally to the all-zero vector
    (no exception, every normalized count defined), and for every input
    the normalization denominator `Math.max(input.length, 1)` is
    positive, so no division by zero occurs. -/
theorem extractFeatures_empty_safe :
    extractFeatures [] = List.replicate 36 (0 : ℚ) ∧
    ∀ s : List Char, 0 < normDen s := by
  constructor
  · norm_num [extractFeatures, b2q, normDen, countChar, countOnWord, countScript,
      List.replicate]
    decide
  · intro s
    simp [normDen]

/-! ### Metric bounds (helper lemmas) -/

lemma precisionOf_nonneg (tp fp : ℕ) : 0 ≤ precisionOf tp fp := by
  unfold precisionOf
  split
  · positivity
  · exact le_refl 0

lemma precisionOf_le_one (tp fp : ℕ) : precisionOf tp fp ≤ 1 := by
  unfold precisionOf
  split
  · next h =>
      have h' : (0 : ℚ) < (tp : ℚ) + (fp : ℚ) := by exact_mod_cast h
      rw [div_le_one h']
      exact le_add_of_nonneg_right (by positivity)
  · exact zero_le_one

lemma recallOf_nonneg (tp fn : ℕ) : 0 ≤ recallOf tp fn := by
  unfold recallOf
  split
  · positivity
  · exact le_refl 0

lemma recallOf_le_one (tp fn : ℕ) : recallOf tp fn ≤ 1 := by
  unfold recallOf
  split
  · next h =>
      have h' : (0 : ℚ) < (tp : ℚ) + (fn : ℚ) := by exact_mod_cast h
      rw [div_le_one h']
      exact le_add_of_nonneg_right (by positivity)
  · exact zero_le_one

lemma f1Of_nonneg (p r : ℚ) (hp : 0 ≤ p) (hr : 0 ≤ r) : 0 ≤ f1Of p r := by
  unfold f1Of
  split
  · next h => positivity
  · exact le_refl 0

lemma f1Of_le_one (p r : ℚ) (hp0 : 0 ≤ p) (hp1 : p ≤ 1) (hr0 : 0 ≤ r) (hr1 : r ≤ 1) :
    f1Of p r ≤ 1 := by
  unfold f1Of
  split
  · next h =>
      rw [div_le_one h]
      nlinarith [mul_nonneg (sub_nonneg.mpr hp1) hr0, mul_nonneg hp0 (sub_nonneg.mpr hr1)]
  · exact zero_le_one

lemma accuracyOf_nonneg (tp tn fp fn : ℕ) : 0 ≤ accuracyOf tp tn fp fn := by
  unfold accuracyOf
  split
  · positivity
  · exact le_refl 0

lemma accuracyOf_le_one (tp tn fp fn : ℕ) : accuracyOf tp tn fp fn ≤ 1 := by
  unfold accuracyOf
  split
  · next h =>
      have h' : (0 : ℚ) < (tp : ℚ) + (tn : ℚ) + (fp : ℚ) + (fn : ℚ) := by exact_mod_cast h
      rw [div_le_one h']
      have : (0:ℚ) ≤ (fp : ℚ) + (fn : ℚ) := by positivity
      linarith
  · exact zero_le_one

/-- C4: the counting step increments exactly the cell selected by the
    (predicted, actual) pair, and the derived metrics obey the guarded
    formulas of the source — `tp/(tp+fp)`, `tp/(tp+fn)`,
    `2·p·r/(p+r)`, `(tp+tn)/total`, each 0 on a zero denominator — and
    always lie in `[0, 1]`. -/
theorem confusionMatrix_step_and_metrics
    (cm : CM) (p a : Bool) (tp tn fp fn : ℕ) :
    (cmStep cm p a =
      if p then
        (if a then { cm with tp := cm.tp + 1 } else { cm with fp := cm.fp + 1 })
      else
        (if a then { cm with fn := cm.fn + 1 } else { cm with tn := cm.tn + 1 })) ∧
    (0 < tp + fp → precisionOf tp fp = (tp : ℚ) / ((tp : ℚ) + (fp : ℚ))) ∧
    (tp + fp = 0 → precisionOf tp fp = 0) ∧
    0 ≤ precisionOf tp fp ∧ precisionOf tp fp ≤ 1 ∧
    (0 < tp + fn → recallOf tp fn = (tp : ℚ) / ((tp : ℚ) + (fn : ℚ))) ∧
    (tp + fn = 0 → recallOf tp fn = 0) ∧
    0 ≤ recallOf tp fn ∧ recallOf tp fn ≤ 1 ∧
    (precisionOf tp fp + recallOf tp fn = 0 →
      f1Of (precisionOf tp fp) (recallOf tp fn) = 0) ∧
    0 ≤ f1Of (precisionOf tp fp) (recallOf tp fn) ∧
    f1Of (precisionOf tp fp) (recallOf tp fn) ≤ 1 ∧
    (0 < tp + tn + fp + fn →
      accuracyOf tp tn fp fn =
        ((tp : ℚ) + (tn : ℚ)) / ((tp : ℚ) + (tn : ℚ) + (fp : ℚ) + (fn : ℚ))) ∧
    (tp + tn + fp + fn = 0 → accuracyOf tp tn fp fn = 0) ∧
    0 ≤ accuracyOf tp tn fp fn ∧ accuracyOf tp tn fp fn ≤ 1 := by
  refine ⟨?_, ?_, ?_, precisionOf_nonneg tp fp, precisionOf_le_one tp fp,
          ?_, ?_, recallOf_nonneg tp fn, recallOf_le_one tp fn,
          ?_,
          f1Of_nonneg _ _ (precisionOf_nonneg tp fp) (recallOf_nonneg tp fn),
          f1Of_le_one _ _ (precisionOf_nonneg tp fp) (precisionOf_le_one tp fp)
            (recallOf_nonneg tp fn) (recallOf_le_one tp fn),
          ?_, ?_, accuracyOf_nonneg tp tn fp fn, accuracyOf_le_one tp tn fp fn⟩
  · cases p <;> cases a <;> simp [cmStep]
  · intro h; simp [precisionOf, h]
  · intro h; simp [precisionOf, h]
  · intro h; simp [recallOf, h]
  · intro h; simp [recallOf, h]
  · intro h
    have hp := precisionOf_nonneg tp fp
    have hr := recallOf_nonneg tp fn
    have hp0 : precisionOf tp fp = 0 := by linarith
    have hr0 : recallOf tp fn = 0 := by linarith
    simp [f1Of, hp0, hr0]
  · intro h; simp [accuracyOf, h]
  · intro h; simp [accuracyOf, h]

/-- C4 (witness): the step and metric laws at concrete inputs —
    a false positive increments `fp`; `precisionOf 1 1 = 1/2`; all
    metrics are 0 on an empty matrix; a balanced 4-count matrix has
    accuracy within bounds. -/
theorem confusionMatrix_step_and_metrics_witness :
    cmStep { tp := 0, tn := 0, fp := 0, fn := 0 } true false =
      { tp := 0, tn := 0, fp := 1, fn := 0 } ∧
    precisionOf 1 1 = 1 / 2 ∧
    precisionOf 0 0 = 0 ∧
    f1Of (precisionOf 0 0) (recallOf 0 0) = 0 ∧
    accuracyOf 1 1 1 1 ≤ 1 := by
  have h1 := confusionMatrix_step_and_metrics
    { tp := 0, tn := 0, fp := 0, fn := 0 } true false 1 0 1 0
  have h2 := confusionMatrix_step_and_metrics
    { tp := 0, tn := 0, fp := 0, fn := 0 } true false 0 0 0 0
  have h3 := confusionMatrix_step_and_metrics
    { tp := 0, tn := 0, fp := 0, fn := 0 } true false 1 1 1 1
  obtain ⟨hs1, hpf1, _, _, _, _, _, _, _, _, _, _, _, _, _, _⟩ := h1
  obtain ⟨_, _, hpz2, _, _, _, hrz2, _, _, hf02, _, _, _, _, _, _⟩ := h2
  obtain ⟨_, _, _, _, _, _, _, _, _, _, _, _, _, _, _, hal3⟩ := h3
  refine ⟨?_, ?_, ?_, ?_, hal3⟩
  · simpa using hs1
  · rw [hpf1 (by norm_num)]; norm_num
  · exact hpz2 rfl
  · refine hf02 ?_
    rw [hpz2 rfl, hrz2 rfl]; norm_num

/-- C6: `trainModel` fails whenever fewer than 2 samples are given —
    with the `'No training data available'` error on an empty sample list
    and the `'Need at least 2 samples to train the model'`
    insufficient-data error otherwise; in particular, training with
    exactly 1 sample raises the insufficient-data error.  It never
    reaches the library fit in these cases. -/
theorem trainModel_insufficient_data
    (trainer : List (List ℚ) → List ℕ → Option RandomForest)
    (trainingData : List (List ℚ)) (trainingLabels : List ℕ)
    (h : trainingData.length < 2) :
    (trainModel trainer trainingData trainingLabels =
      .error (if trainingData.length = 0 then .noTrainingData else .insufficientData)) ∧
    (trainingData.length = 1 →
      trainModel trainer trainingData trainingLabels = .error .insufficientData) := by
  constructor
  · unfold trainModel
    have h01 : trainingData.length = 0 ∨ trainingData.length = 1 := by omega
    rcases h01 with h0 | h1
    · simp [h0]
    · simp [h1]
  · intro h1
    unfold trainModel
    simp [h1]

/-- C6 (witness): training with exactly one sample fails with the
    insufficient-data error, for any trainer. -/
theorem trainModel_insufficient_data_witness :
    trainModel (fun _ _ => none) [extractFeatures []] [1] =
      .error .insufficientData :=
  (trainModel_insufficient_data (fun _ _ => none) [extractFeatures []] [1]
    (by decide)).2 rfl

/-- C10: in the fold-evaluation loop, a `null` prediction is treated as
    predicted-clean: appending a test sample whose prediction is `none`
    increments `fn` when its ground truth is malicious and `tn`
    otherwise — the sample is never skipped and never counted as a
    malicious prediction. -/
theorem nullPrediction_counts_as_clean
    (P : RandomForest → List Char → Option Pred) (m : RandomForest)
    (testSet : List Sample) (s : Sample)
    (h : P m s.raw = none) :
    evalFoldCM P m (testSet ++ [s]) =
      (let cm := evalFoldCM P m testSet
       if s.groundTruth == "malicious" then { cm with fn := cm.fn + 1 }
       else { cm with tn := cm.tn + 1 }) := by
  unfold evalFoldCM
  rw [List.foldl_append]
  simp only [List.foldl_cons, List.foldl_nil, h]
  rcases hb : (s.groundTruth == "malicious") with _ | _ <;>
    simp [cmUpdate, cmStep, hb]

/-- C10 (witness): a single malicious-labeled sample with a `null`
    prediction is counted as a false negative. -/
theorem nullPrediction_counts_as_clean_witness :
    evalFoldCM (fun _ _ => none)
      { maxFeatures := 1, nEstimators := 1, estimators := [], featureCount := none }
      ([] ++ [{ raw := [], groundTruth := "malicious" }]) =
      { tp := 0, tn := 0, fp := 0, fn := 1 } := by
  rw [nullPrediction_counts_as_clean (fun _ _ => none)
    { maxFeatures := 1, nEstimators := 1, estimators := [], featureCount := none }
    [] { raw := [], groundTruth := "malicious" } rfl]
  simp [evalFoldCM]

/-! ### Fold partition (helper lemmas) -/

/-- Cumulative-drop form of the fold split: the first `k-1` chunks of
    size `fs`, the last chunk the whole remainder. -/
def chunksAux (fs : ℕ) : List Sample → ℕ → List (List Sample)
  | _, 0 => []
  | l, 1 => [l]
  | l, k + 2 => l.take fs :: chunksAux fs (l.drop fs) (k + 1)

lemma chunksAux_flatten (fs : ℕ) :
    ∀ (k : ℕ) (l : List Sample), 0 < k → (chunksAux fs l k).flatten = l := by
  intro k
  induction k with
  | zero => intro l h; omega
  | succ n ih =>
      intro l _
      cases n with
      | zero => simp [chunksAux]
      | succ m =>
          have h := ih (l.drop fs) (Nat.succ_pos m)
          simp [chunksAux, h, List.take_append_drop]

lemma range_map_eq_chunksAux (fs : ℕ) :
    ∀ (k : ℕ) (l : List Sample),
      (List.range k).map
          (fun i => if i = k - 1 then l.drop (i * fs) else (l.drop (i * fs)).take fs)
        = chunksAux fs l k := by
  intro k
  induction k with
  | zero => intro l; simp [chunksAux]
  | succ n ih =>
      intro l
      cases n with
      | zero =>
          have h1 : List.range 1 = [0] := rfl
          simp [chunksAux, h1]
      | succ m =>
          rw [List.range_succ_eq_map, List.map_cons, List.map_map]
          have hhead :
              (if 0 = m + 2 - 1 then l.drop (0 * fs) else (l.drop (0 * fs)).take fs)
                = l.take fs := by
            simp
          have hfun : ∀ i ∈ List.range (m + 1),
              ((fun i => if i = m + 2 - 1 then l.drop (i * fs)
                          else (l.drop (i * fs)).take fs) ∘ Nat.succ) i
                = (fun i => if i = m + 1 - 1 then (l.drop fs).drop (i * fs)
                            else ((l.drop fs).drop (i * fs)).take fs) i := by
            intro i _
            have hdrop : l.drop ((i + 1) * fs) = (l.drop fs).drop (i * fs) := by
              rw [List.drop_drop]
              congr 1
              ring
            by_cases hi : i = m
            · subst hi
              simp [hdrop, Nat.succ_eq_add_one]
            · have h1 : ¬ (i + 1 = m + 2 - 1) := by omega
              have h2 : ¬ (i = m + 1 - 1) := by omega
              simp [Function.comp, h1, h2, hdrop, Nat.succ_eq_add_one]
          rw [hhead, List.map_congr_left hfun, ih (l.drop fs)]
          rfl

lemma makeFolds_getD (l : List Sample) (k i : ℕ) (h : i < k) :
    (makeFolds l k).getD i [] =
      (if i = k - 1 then l.drop (i * (l.length / k))
       else (l.drop (i * (l.length / k))).take (l.length / k)) := by
  unfold makeFolds
  rw [List.getD_eq_getElem?_getD, List.getElem?_map, List.getElem?_range h]
  rfl

/-- C3: for `n = l.length ≥ k` (and `k ≥ 1`) the split produces exactly
    `k` contiguous folds — folds `0..k-2` of size `⌊n/k⌋` and the final
    fold of size `n - (k-1)·⌊n/k⌋` — and the folds concatenate back to
    the whole (shuffled) sample list: every sample position lands in
    exactly one fold, whether or not `k` divides `n`. -/
theorem makeFolds_partition (l : List Sample) (k : ℕ) (hk : 0 < k) (hn : k ≤ l.length) :
    (makeFolds l k).length = k ∧
    (∀ i, i < k - 1 → ((makeFolds l k).getD i []).length = l.length / k) ∧
    ((makeFolds l k).getD (k - 1) []).length = l.length - (k - 1) * (l.length / k) ∧
    (makeFolds l k).flatten = l := by
  refine ⟨?_, ?_, ?_, ?_⟩
  · simp [makeFolds]
  · intro i hi
    rw [makeFolds_getD l k i (by omega)]
    have hne : ¬ (i = k - 1) := by omega
    rw [if_neg hne, List.length_take, List.length_drop]
    have hfsk : (l.length / k) * k ≤ l.length := Nat.div_mul_le_self l.length k
    have hcomm : k * (l.length / k) = (l.length / k) * k := Nat.mul_comm k (l.length / k)
    have hle : (i + 1) * (l.length / k) ≤ k * (l.length / k) :=
      Nat.mul_le_mul_right (l.length / k) (by omega)
    have hexp : (i + 1) * (l.length / k) = i * (l.length / k) + (l.length / k) := by ring
    omega
  · rw [makeFolds_getD l k (k - 1) (by omega), if_pos rfl, List.length_drop]
  · show ((List.range k).map _).flatten = l
    rw [range_map_eq_chunksAux (l.length / k) k l, chunksAux_flatten (l.length / k) k l hk]

/-- C3 (witness): 5 samples, k = 2 — fold sizes 2 and 3, and the folds
    concatenate to the original list. -/
theorem makeFolds_partition_witness :
    (makeFolds [{ raw := [], groundTruth := "malicious" },
                { raw := [], groundTruth := "clean" },
                { raw := [], groundTruth := "malicious" },
                { raw := [], groundTruth := "clean" },
                { raw := [], groundTruth := "clean" }] 2).length = 2 ∧
    ((makeFolds [{ raw := [], groundTruth := "malicious" },
                 { raw := [], groundTruth := "clean" },
                 { raw := [], groundTruth := "malicious" },
                 { raw := [], groundTruth := "clean" },
                 { raw := [], groundTruth := "clean" }] 2).getD 0 []).length = 2 ∧
    ((makeFolds [{ raw := [], groundTruth := "malicious" },
                 { raw := [], groundTruth := "clean" },
                 { raw := [], groundTruth := "malicious" },
                 { raw := [], groundTruth := "clean" },
                 { raw := [], groundTruth := "clean" }] 2).getD 1 []).length = 3 ∧
    (makeFolds [{ raw := [], groundTruth := "malicious" },
                { raw := [], groundTruth := "clean" },
                { raw := [], groundTruth := "malicious" },
                { raw := [], groundTruth := "clean" },
                { raw := [], groundTruth := "clean" }] 2).flatten =
      [{ raw := [], groundTruth := "malicious" },
       { raw := [], groundTruth := "clean" },
       { raw := [], groundTruth := "malicious" },
       { raw := [], groundTruth := "clean" },
       { raw := [], groundTruth := "clean" }] := by
  have h := makeFolds_partition
    [{ raw := [], groundTruth := "malicious" },
     { raw := [], groundTruth := "clean" },
     { raw := [], groundTruth := "malicious" },
     { raw := [], groundTruth := "clean" },
     { raw := [], groundTruth := "clean" }] 2 (by decide) (by decide)
  exact ⟨h.1, h.2.1 0 (by decide), h.2.2.1, h.2.2.2⟩

/-- C2: whenever cross-validation succeeds, the reported fold list is
    exactly the successfully-evaluated folds (`filterMap` drops a fold
    whose training failed — it is skipped, not counted as zero), each
    aggregated count is the sum of the corresponding per-fold counts over
    those folds, and the aggregated metrics are derived from the summed
    counts via the guarded formulas, not from averaged per-fold rates. -/
theorem kfold_aggregation_is_sum
    (trainer : List (List ℚ) → List ℕ → Option RandomForest)
    (P : RandomForest → List Char → Option Pred)
    (l : List Sample) (k : ℕ) (r : CVResult)
    (h : performKFoldCrossValidation trainer P l k = .ok r) :
    r.foldResults = (List.range k).filterMap (evalFold trainer P (makeFolds l k)) ∧
    r.aggregated.tp = (r.foldResults.map (·.tp)).sum ∧
    r.aggregated.tn = (r.foldResults.map (·.tn)).sum ∧
    r.aggregated.fp = (r.foldResults.map (·.fp)).sum ∧
    r.aggregated.fn = (r.foldResults.map (·.fn)).sum ∧
    r.aggregated.precision = precisionOf r.aggregated.tp r.aggregated.fp ∧
    r.aggregated.recallVal = recallOf r.aggregated.tp r.aggregated.fn ∧
    r.aggregated.f1 = f1Of r.aggregated.precision r.aggregated.recallVal ∧
    r.aggregated.accuracy =
      accuracyOf r.aggregated.tp r.aggregated.tn r.aggregated.fp r.aggregated.fn := by
  simp only [performKFoldCrossValidation] at h
  split at h
  · exact absurd h (by simp)
  · split at h
    · exact absurd h (by simp)
    · injection h with h
      subst h
      refine ⟨rfl, rfl, rfl, rfl, rfl, rfl, rfl, rfl, rfl⟩

/-- Trainer and predictor standing in for the external library in the
    concrete witnesses: a constant single-leaf forest and the source's
    `predict`. -/
def wForest : RandomForest :=
  { maxFeatures := 6, nEstimators := 1, estimators := [DTree.leaf 0],
    featureCount := none }

def wTrainer : List (List ℚ) → List ℕ → Option RandomForest :=
  fun _ _ => some wForest

def wPredict : RandomForest → List Char → Option Pred :=
  fun m s => predictFn (some m) s

def wSamples : List Sample :=
  [{ raw := [], groundTruth := "malicious" },
   { raw := [], groundTruth := "clean" },
   { raw := [], groundTruth := "malicious" },
   { raw := [], groundTruth := "clean" }]

def wResult : CVResult :=
  ((performKFoldCrossValidation wTrainer wPredict wSamples 2).toOption).getD default

/-- C2 (witness): a 4-sample, 2-fold run succeeds and its aggregated
    true-positive count is the sum over the per-fold counts. -/
theorem kfold_aggregation_is_sum_witness :
    performKFoldCrossValidation wTrainer wPredict wSamples 2 = .ok wResult ∧
    wResult.aggregated.tp = (wResult.foldResults.map (·.tp)).sum := by
  have hok : performKFoldCrossValidation wTrainer wPredict wSamples 2 = .ok wResult := rfl
  exact ⟨hok, (kfold_aggregation_is_sum wTrainer wPredict wSamples 2 wResult hok).2.1⟩

/-- C7: with fewer labeled samples than folds, cross-validation resolves
    with the descriptive `Not enough labeled data` error; and when no
    fold trains successfully it resolves with the descriptive
    `Failed to train models for any fold` error — in both cases a
    resolved error object, not a crash. -/
theorem kfold_error_paths
    (trainer : List (List ℚ) → List ℕ → Option RandomForest)
    (P : RandomForest → List Char → Option Pred)
    (l : List Sample) (k : ℕ) :
    (l.length < k →
      performKFoldCrossValidation trainer P l k =
        .error (.notEnoughLabeledData k l.length)) ∧
    (¬ l.length < k →
      ((List.range k).filterMap (evalFold trainer P (makeFolds l k))).isEmpty = true →
      performKFoldCrossValidation trainer P l k = .error .allFoldsFailed) := by
  constructor
  · intro h
    simp only [performKFoldCrossValidation]
    rw [if_pos h]
  · intro h hempty
    simp only [performKFoldCrossValidation]
    rw [if_neg h]
    simp only [hempty]
    rfl

def wFailTrainer : List (List ℚ) → List ℕ → Option RandomForest :=
  fun _ _ => none

def wSamples3 : List Sample :=
  [{ raw := [], groundTruth := "malicious" },
   { raw := [], groundTruth := "clean" },
   { raw := [], groundTruth := "malicious" }]

/-- C7 (witness): 3 labeled samples with k = 4 resolve with the
    not-enough-data error, and a 4-sample run whose every fold fails to
    train resolves with the all-folds-failed error. -/
theorem kfold_error_paths_witness :
    performKFoldCrossValidation wTrainer wPredict wSamples3 4 =
      .error (.notEnoughLabeledData 4 3) ∧
    performKFoldCrossValidation wFailTrainer wPredict wSamples 2 =
      .error .allFoldsFailed := by
  constructor
  · exact (kfold_error_paths wTrainer wPredict wSamples3 4).1 (by decide)
  · exact (kfold_error_paths wFailTrainer wPredict wSamples 2).2
      (by decide) (by decide)

/-! ### Serialization round-trip (helper lemmas) -/

lemma decodeNatQ_natCast (n : ℕ) : decodeNatQ (n : ℚ) = some n := by
  simp [decodeNatQ]

lemma decodeTree_encodeTree (t : DTree) : decodeTree (encodeTree t) = some t := by
  induction t with
  | leaf l => simp [encodeTree, decodeTree, decodeNatQ_natCast]
  | node i thr lft rgt ihl ihr =>
      simp [encodeTree, decodeTree, decodeNatQ_natCast, ihl, ihr]

lemma decodeTrees_map_encodeTree (ts : List DTree) :
    decodeTrees (ts.map encodeTree) = some ts := by
  induction ts with
  | nil => rfl
  | cons t ts ih => simp [decodeTrees, decodeTree_encodeTree, ih]

lemma decodeRF_encodeRF (rf : RandomForest) :
    decodeRF (encodeRF rf) =
      some { maxFeatures := rf.maxFeatures, nEstimators := rf.nEstimators,
             estimators := rf.estimators, featureCount := none } := by
  simp [encodeRF, decodeRF, decodeNatQ_natCast, decodeTrees_map_encodeTree]

lemma predictFn_congr_estimators (rf rf' : RandomForest)
    (h : rf.estimators = rf'.estimators) (x : List Char) :
    predictFn (some rf) x = predictFn (some rf') x := by
  simp [predictFn, rfPredictLabel, rfProb, h]

/-- C5: persisting a trained model and loading it back yields a
    classifier with exactly the same predictions for every input — the
    label, the malicious-class probability and the confidence are all
    equal (exact rational equality, which subsumes the claim's
    bit-for-bit label equality and float-tolerance on probabilities),
    for any `featureCount` argument passed at save time. -/
theorem predict_load_save_roundtrip
    (rf : RandomForest) (fcArg : Option ℕ) (x : List Char) :
    predictFn (loadModel (some (saveModel rf fcArg))) x = predictFn (some rf) x := by
  have hload : loadModel (some (saveModel rf fcArg)) =
      some { maxFeatures := rf.maxFeatures, nEstimators := rf.nEstimators,
             estimators := rf.estimators, featureCount := none } := by
    have htrees : (saveModel rf fcArg).trees = encodeRF rf := rfl
    simp only [loadModel, rfLoad, htrees, decodeRF_encodeRF]
  rw [hload]
  exact predictFn_congr_estimators _ rf rfl x

/-! ### Legacy featureCount reconstruction -/

/-- C9: when a persisted artifact lacks a (truthy) `featureCount`, the
    loader reconstructs it first from the stored base model as
    `maxFeatures²` (no warning needed), then — when that heuristic is
    unavailable — from re-running the extractor on the empty string,
    logging a warning; and whenever no warning is logged the count came
    from the artifact's own data, never from a silent default (the
    hardcoded fallback 19 is unreachable because the extractor inference
    always succeeds, and it too would log a warning). -/
theorem loadModel_featureCount_reconstruction (md : ModelData)
    (h : jsFalsy md.featureCount = true) :
    (∀ m, getBaseModelMaxFeatures md.trees = some m → m ≠ 0 →
        resolveLoadFeatureCount md = (some (m ^ 2), false)) ∧
    ((getBaseModelMaxFeatures md.trees = none ∨
        getBaseModelMaxFeatures md.trees = some 0) →
      resolveLoadFeatureCount md = (some ((extractFeatures []).length), true)) ∧
    ((resolveLoadFeatureCount md).2 = false →
      ∃ m, getBaseModelMaxFeatures md.trees = some m ∧ m ≠ 0 ∧
        (resolveLoadFeatureCount md).1 = some (m ^ 2)) := by
  have hfalsy_some : ∀ n : ℕ, jsFalsy (some n) = (n == 0) := fun _ => rfl
  have hA : ∀ m, getBaseModelMaxFeatures md.trees = some m → m ≠ 0 →
      resolveLoadFeatureCount md = (some (m ^ 2), false) := by
    intro m hm hm0
    have hsq : ((m ^ 2 : ℕ) == 0) = false := by
      simpa using pow_ne_zero 2 hm0
    simp [resolveLoadFeatureCount, h, hm, hm0, hfalsy_some, hsq]
  have hB : (getBaseModelMaxFeatures md.trees = none ∨
      getBaseModelMaxFeatures md.trees = some 0) →
      resolveLoadFeatureCount md = (some ((extractFeatures []).length), true) := by
    intro hOr
    have hinf : inferFeatureCountFromExtractor = some ((extractFeatures []).length) := rfl
    have hlen : (((extractFeatures []).length : ℕ) == 0) = false := by decide
    have hne : extractFeatures [] ≠ [] := by
      intro heq
      have h36 : (extractFeatures []).length = 36 := rfl
      rw [heq] at h36
      simp at h36
    rcases hOr with hm | hm <;>
      simp [resolveLoadFeatureCount, h, hm, hfalsy_some, hinf, hlen, hne,
        inferFeatureCountFromExtractor]
  refine ⟨hA, hB, ?_⟩
  intro hw
  rcases hm : getBaseModelMaxFeatures md.trees with _ | m
  · rw [hB (Or.inl hm)] at hw
    simp at hw
  · by_cases hm0 : m = 0
    · subst hm0
      rw [hB (Or.inr hm)] at hw
      simp at hw
    · exact ⟨m, rfl, hm0, by rw [hA m hm hm0]⟩

def wArtifactNoMF : ModelData :=
  { trees := Json.null, featureCount := none, hyperparameters := none }

def wArtifactMF : ModelData :=
  { trees := Json.obj
      [("baseModel", Json.obj
          [("maxFeatures", Json.num 5), ("nEstimators", Json.num 100)])],
    featureCount := none, hyperparameters := none }

/-- C9 (witness): an artifact without `featureCount` but with
    `maxFeatures = 5` resolves to `25` without warning; one with no
    recoverable base model resolves to the extractor length `36`, with a
    warning. -/
theorem loadModel_featureCount_reconstruction_witness :
    resolveLoadFeatureCount wArtifactMF = (some 25, false) ∧
    resolveLoadFeatureCount wArtifactNoMF = (some 36, true) := by
  have h1 := loadModel_featureCount_reconstruction wArtifactMF rfl
  have h2 := loadModel_featureCount_reconstruction wArtifactNoMF rfl
  constructor
  · have := h1.1 5 (by decide) (by decide)
    simpa using this
  · have := h2.2.1 (Or.inl rfl)
    simpa using this

end XSS
